import Mathlib

/-!
Verification development for the SEI chatbot repository.

The Python sources (`tools.py`, `utils.py`, `Chatbot.py`) are shallowly
embedded below.  Python strings are modelled as `List Char` (`PyStr`),
the process archive on disk as an explicit directory forest (`FS`),
and each tool function as a pure Lean function translated statement by
statement from its Python body.  Fallible Python code is modelled with
`Option`/`Except`: a `Except.error` value marks an exception escaping the
function, while exceptions that the Python code catches are folded into
the returned value exactly where the `except` clauses sit in the source.
-/

/-- Python `str`, modelled as its list of characters. -/
abbrev PyStr := List Char

/-- Convert a Lean string literal into the `PyStr` model. -/
def pstr (s : String) : PyStr := s.toList

/-! ### Python built-in string operations used by `tools.py` -/

/-- Python `s.split(sep)` for a one-character separator `sep`.
`"".split(",") = [""]`, and separators at the ends produce empty fields,
as in CPython. -/
def pySplit (s : PyStr) (sep : Char) : List PyStr :=
  match s with
  | [] => [[]]
  | c :: rest =>
    let r := pySplit rest sep
    if c == sep then [] :: r
    else
      match r with
      | [] => [[c]]
      | h :: t => (c :: h) :: t

/-- Python `sep.join(parts)` for a one-character separator. -/
def pyJoin : List PyStr → Char → PyStr
  | [], _ => []
  | [p], _ => p
  | p :: ps, c => p ++ c :: pyJoin ps c

/-- Python `s.zfill(w)`: left-pad with `'0'` to width `w`, keeping a
leading sign character in front of the padding. -/
def pyZfill (s : PyStr) (w : Nat) : PyStr :=
  match s with
  | [] => List.replicate w '0'
  | c :: rest =>
    if c == '+' || c == '-' then c :: (List.replicate (w - s.length) '0' ++ rest)
    else List.replicate (w - s.length) '0' ++ s

/-- Python `s[:-n]` (drop the last `n` characters; whole-string slice
semantics when `n` exceeds the length, i.e. the result is empty). -/
def pyDropLastN (s : PyStr) (n : Nat) : PyStr := s.take (s.length - n)

/-- Python `s[-n:]` (the last `n` characters; the whole string when `n`
exceeds the length). -/
def pyTakeLastN (s : PyStr) (n : Nat) : PyStr := s.drop (s.length - n)

/-- Python `s.endswith(t)`: exact, case-sensitive suffix test. -/
def pyEndsWith (s t : PyStr) : Bool := t.isSuffixOf s

/-- Python `s.lower()`, restricted to the ASCII letters that appear in
this repository's file names. -/
def pyLower (s : PyStr) : PyStr := s.map Char.toLower

/-- Does `s` start with `p`?  (Helper for the substring test.) -/
def pyStartsWith : PyStr → PyStr → Bool
  | _, [] => true
  | [], _ :: _ => false
  | c :: cs, d :: ds => c == d && pyStartsWith cs ds

/-- Python `needle in hay` on strings: substring containment. -/
def pyContains (hay needle : PyStr) : Bool :=
  match hay with
  | [] => pyStartsWith [] needle
  | c :: rest => pyStartsWith (c :: rest) needle || pyContains rest needle

/-- The value of a non-empty all-digit string, `none` otherwise.
(Helper for the model of Python `int()`.) -/
def digitsVal (ds : PyStr) : Option Nat :=
  if ds.isEmpty then none
  else if ds.all Char.isDigit then
    some (ds.foldl (fun a c => a * 10 + (c.toNat - 48)) 0)
  else none

/-- Python `int(s)`: an optional sign followed by decimal digits.
(CPython additionally strips whitespace and allows `_` separators;
those inputs never occur in this development and are modelled as
failures.) -/
def pyInt (s : PyStr) : Option Int :=
  match s with
  | c :: ds =>
    if c == '-' then (digitsVal ds).map (fun n => -(n : Int))
    else if c == '+' then (digitsVal ds).map (fun n => (n : Int))
    else (digitsVal (c :: ds)).map (fun n => (n : Int))
  | [] => none

/-- The decimal digit character for `d < 10`. -/
def digitChar (d : Nat) : Char := Char.ofNat (48 + d)

/-- Decimal rendering of a natural number, as Python `str`/f-string
interpolation produces it (fuel-based so that it reduces by `decide`). -/
def natStrAux : Nat → Nat → PyStr
  | 0, _ => []
  | fuel + 1, n =>
    if n < 10 then [digitChar n]
    else natStrAux fuel (n / 10) ++ [digitChar (n % 10)]

/-- Decimal rendering of a natural number. -/
def natStr (n : Nat) : PyStr := natStrAux (n + 1) n

/-- Decimal rendering of a Python `int` (f-string interpolation). -/
def intStr : Int → PyStr
  | Int.ofNat n => natStr n
  | Int.negSucc m => '-' :: natStr (m + 1)

/-- CPython list slicing `l[start:stop]` (step 1): negative indices
count from the end, and both bounds are clamped to the list. -/
def pySlice (l : List α) (start stop : Int) : List α :=
  let n : Int := l.length
  let s := if start < 0 then max (n + start) 0 else min start n
  let e := if stop < 0 then max (n + stop) 0 else min stop n
  (l.drop s.toNat).take (e - s).toNat

/-! ### The archive on disk

`search_process` and the listing tools only inspect the file system
through `os.path.exists` on the per-process folder and `os.walk` inside
it, so the model keeps exactly that structure: a finite map from folder
name to a directory tree, where each tree node carries its plain files
and its subdirectories. -/

/-- A directory tree: the files directly inside, and the subdirectories. -/
inductive Dir where
  | node (files : List PyStr) (subdirs : List Dir)

mutual

/-- All file names in the tree, in `os.walk` top-down order. -/
def Dir.walkFiles : Dir → List PyStr
  | Dir.node files subdirs => files ++ walkFilesList subdirs

/-- All file names of a list of trees, in order. -/
def walkFilesList : List Dir → List PyStr
  | [] => []
  | d :: ds => Dir.walkFiles d ++ walkFilesList ds

end

/-- The `processos` root: one named directory tree per process folder. -/
structure FS where
  folders : List (PyStr × Dir)

/-- The directory tree stored under `name`, if that folder exists. -/
def FS.lookup (fs : FS) (name : PyStr) : Option Dir :=
  (fs.folders.find? (fun p => p.1 == name)).map (fun p => p.2)

/-- `os.path.exists` on `processos/<name>`. -/
def FS.pathExists (fs : FS) (name : PyStr) : Bool := (fs.lookup name).isSome

/-! ### `tools.py` -/

/-- `search_process`, lines 28–35: the identifier-normalisation step.
An identifier shorter than 9 characters is either `zfill`ed to 9
(compact shape) or has the segment before the first `/` `zfill`ed
to 5 (slashed shape). -/
def normalizeId (id : PyStr) : PyStr :=
  if id.length < 9 then
    if '/' ∉ id then pyZfill id 9
    else
      match pySplit id '/' with
      | p0 :: rest => pyJoin (pyZfill p0 5 :: rest) '/'
      | [] => []
  else id

/-- The folder name `search_process` probes with `os.path.exists`
(lines 36–46): `SEI_{id[:-4]}_{id[-4:]}` for the compact shape and
`SEI_{id.split('/')[0]}_{id.split('/')[1]}` for the slashed shape. -/
def folderOf (id0 : PyStr) : PyStr :=
  let id := normalizeId id0
  if '/' ∉ id then
    pstr ("SEI_") ++ pyDropLastN id 4 ++ pstr ("_") ++ pyTakeLastN id 4
  else
    let parts := pySplit id '/'
    pstr ("SEI_") ++ parts.getD 0 [] ++ pstr ("_") ++ parts.getD 1 []

/-- `tools.search_process` (lines 5–56).  Every statement of the body is
inside the `try`, and none of the string operations can raise, so the
function is total: it returns the folder name when the folder exists and
the sentinel `"Process not found"` otherwise. -/
def search_process (fs : FS) (id0 : PyStr) : PyStr :=
  let id := normalizeId id0
  if '/' ∉ id then
    let folder := pstr ("SEI_") ++ pyDropLastN id 4 ++ pstr ("_") ++ pyTakeLastN id 4
    if fs.pathExists folder then folder else pstr ("Process not found")
  else
    let parts := pySplit id '/'
    let folder := pstr ("SEI_") ++ parts.getD 0 [] ++ pstr ("_") ++ parts.getD 1 []
    if fs.pathExists folder then folder else pstr ("Process not found")

/-- Result of `get_document_list_from_process`: either the success
dictionary or one of the sentinel strings it returns. -/
inductive ListResult where
  | ok (documents : List PyStr) (total_number_of_documents : Nat)
  | err (msg : PyStr)
deriving DecidableEq

/-- String comparison as CPython orders `str`: lexicographically by
code point. -/
def strLe : PyStr → PyStr → Bool
  | [], _ => true
  | _ :: _, [] => false
  | a :: as, b :: bs =>
    if a.toNat < b.toNat then true
    else if b.toNat < a.toNat then false
    else strLe as bs

/-- The ordering relation used by `documents.sort()`. -/
def strLeP (a b : PyStr) : Prop := strLe a b = true

instance : DecidableRel strLeP :=
  fun a b => inferInstanceAs (Decidable (strLe a b = true))

/-- Python `list.sort()` on strings, modelled by (stable) insertion
sort with the code-point order. -/
def pySort (l : List PyStr) : List PyStr := List.insertionSort strLeP l

/-- The list-comprehension filter of lines 99–103: keep the file names
ending in `".pdf"` (exact, case-sensitive suffix). -/
def pdfFilter (files : List PyStr) : List PyStr :=
  files.filter (fun f => pyEndsWith f (pstr (".pdf")))

/-- `os.walk` over `processos/<folder>`, flattened to the file names it
yields.  With the default `onerror=None`, `os.walk` over an absent
directory yields no triples and raises nothing, so the absent case is
the empty list. -/
def walkDocuments (fs : FS) (folder : PyStr) : List PyStr :=
  match fs.lookup folder with
  | some d => d.walkFiles
  | none => []

/-- `tools.get_document_list_from_process` (lines 58–111).  The first
`try` (split into three fields, resolve the process, parse the two
integers) reports `"Invalid parameters"` on failure; the second `try`
walks the folder, filters `.pdf` files, sorts, and slices — none of
those operations can raise, so its `except` branch never fires. -/
def get_document_list_from_process (fs : FS) (parameters : PyStr) : ListResult :=
  match pySplit parameters ',' with
  | [process_id, limitStr, offsetStr] =>
    let process_folder := search_process fs process_id
    if process_folder = pstr ("Process not found") ∨
        process_folder = pstr ("Process folder not found") then
      ListResult.err process_folder
    else
      match pyInt limitStr, pyInt offsetStr with
      | some limit, some offset =>
        let documents := pySort (pdfFilter (walkDocuments fs process_folder))
        ListResult.ok (pySlice documents offset (offset + limit)) documents.length
      | _, _ => ListResult.err (pstr ("Invalid parameters"))
  | _ => ListResult.err (pstr ("Invalid parameters"))

/-- Result of `get_document_by_type` when it returns normally: the
success dictionary or one of its message strings. -/
inductive TypeResult where
  | ok (documents : List PyStr) (number_of_documents : Nat)
  | err (msg : PyStr)
deriving DecidableEq

/-- `tools.get_document_by_type` (lines 134–168).  The two-field unpack
`process_id, document_type = parameters.split(",")` is *outside* any
`try`, so a field count other than two raises `ValueError` past the
function boundary (`Except.error`).  The only `try` in the body guards
reading `response["total_number_of_documents"]`; subscripting a sentinel
string there raises `TypeError`, which that `except` converts to the
`"Error: Could not retrieve total number"` message.  The later
`response["documents"]` subscript is unguarded, so a sentinel result of
the second listing call would raise `TypeError` past the boundary. -/
def get_document_by_type (fs : FS) (parameters : PyStr) : Except PyStr TypeResult :=
  match pySplit parameters ',' with
  | [process_id, document_type] =>
    let process_folder := search_process fs process_id
    if process_folder = pstr ("Process not found") ∨
        process_folder = pstr ("Process folder not found") then
      Except.ok (TypeResult.err process_folder)
    else
      match get_document_list_from_process fs (process_id ++ pstr (",1,0")) with
      | ListResult.err _ =>
        Except.ok (TypeResult.err (pstr ("Error: Could not retrieve total number")))
      | ListResult.ok _ total_documents =>
        match get_document_list_from_process fs
            (process_id ++ [','] ++ natStr total_documents ++ pstr (",0")) with
        | ListResult.err _ =>
          Except.error (pstr ("TypeError: string indices must be integers"))
        | ListResult.ok documents _ =>
          let documents_found := documents.filter
            (fun d => pyContains (pyLower d) (pyLower document_type))
          if documents_found.length > 0 then
            Except.ok (TypeResult.ok documents_found documents_found.length)
          else
            Except.ok (TypeResult.err
              (pstr ("Documents of type ") ++ document_type ++
                pstr (" not found in process ") ++ process_id))
  | _ => Except.error (pstr ("ValueError: not exactly two comma-separated fields"))

/-- `true` exactly when a tool call raised past its boundary. -/
def raisesException : Except PyStr TypeResult → Bool
  | Except.error _ => true
  | Except.ok _ => false

/-- Number of `.pdf` files anywhere under the folder that `search_process`
resolves `pid` to. -/
def pdfCount (fs : FS) (pid : PyStr) : Nat :=
  (pdfFilter (walkDocuments fs (folderOf pid))).length

/-- The documents of a case whose lower-cased file name contains the
lower-cased type token — the list `get_document_by_type` builds with
its `document_type.lower() in document.lower()` comprehension. -/
def typeMatches (fs : FS) (pid ty : PyStr) : List PyStr :=
  (pySort (pdfFilter (walkDocuments fs (folderOf pid)))).filter
    (fun d => pyContains (pyLower d) (pyLower ty))

/-! ### `utils.py` — the archive fetcher

`download_and_extract_zip_from_drive` (lines 17–66) interacts with the
outside world through four effectful calls: `os.makedirs`,
`gdown.download`, `ZipFile.extractall`, and `os.remove`.  The model
takes the outcome of each call as an oracle (`ZipEnv`) and reproduces
the function's control flow: `os.makedirs` runs *before* the `try`, so
its failure propagates (`Except.error`); the other three run inside the
`try`, whose `except` clauses turn `BadZipFile` and any other exception
into a `False` return. -/

/-- Outcome of `ZipFile(...)`/`extractall`: success, a `BadZipFile`
error, or some other I/O exception. -/
inductive ExtractOutcome where
  | ok
  | badZipFile
  | ioError (msg : PyStr)
deriving DecidableEq

/-- Oracle for the four effectful calls of the fetcher.  `none` means
the call succeeded; `some msg` means it raised with message `msg`. -/
structure ZipEnv where
  makedirsError : Option PyStr
  downloadError : Option PyStr
  extractOutcome : ExtractOutcome
  removeError : Option PyStr

/-- `utils.download_and_extract_zip_from_drive`.  Returns
`Except.error` when an exception escapes the function, `Except.ok b`
when it returns the boolean `b`. -/
def download_and_extract_zip_from_drive (env : ZipEnv) : Except PyStr Bool :=
  match env.makedirsError with
  | some e => Except.error e
  | none =>
    match env.downloadError with
    | some _ => Except.ok false
    | none =>
      match env.extractOutcome with
      | ExtractOutcome.badZipFile => Except.ok false
      | ExtractOutcome.ioError _ => Except.ok false
      | ExtractOutcome.ok =>
        match env.removeError with
        | some _ => Except.ok false
        | none => Except.ok true

/-! ### `Chatbot.py` — the download status machine

The status lives in the module-level globals `download_complete` /
`download_error` written by the background thread
(`background_download`, lines 59–82) and mirrored into the per-session
flags by the polling fragment (`update_download_status`, lines
152–190).  The model is a state machine whose actions are: one fetch
attempt finishing with some outcome, and one run of the polling
fragment.  (The module-level `download_started` global is declared in
the source but never written after initialisation, so it is omitted.) -/

/-- The download status flags shared between the background thread and
the polling UI fragment. -/
structure DownloadState where
  download_complete : Bool
  download_error : Option PyStr
  session_started : Bool
  session_complete : Bool
  session_error : Option PyStr
deriving DecidableEq

/-- How one fetch attempt ends: `download_and_extract_zip_from_drive`
returned `True`, returned `False`, or raised with message `msg`. -/
inductive FetchOutcome where
  | success
  | failure
  | exc (msg : PyStr)
deriving DecidableEq

/-- `Chatbot.background_download` (lines 59–82): on success set
`download_complete`; on a `False` return record `"Download failed"`;
on an exception record its message.  No branch touches the other
flag. -/
def background_download (s : DownloadState) (o : FetchOutcome) : DownloadState :=
  match o with
  | FetchOutcome.success => { s with download_complete := true }
  | FetchOutcome.failure => { s with download_error := some (pstr ("Download failed")) }
  | FetchOutcome.exc msg => { s with download_error := some msg }

/-- Python truthiness of the `download_error` global (`if download_error:`):
set and non-empty. -/
def truthyErr : Option PyStr → Bool
  | none => false
  | some m => !m.isEmpty

/-- `Chatbot.update_download_status` (lines 152–190): start the thread
once (set `session_started`), copy `download_complete` into the session
flag, and copy a truthy `download_error` into the session flag.  The
animated-dots counter has no effect on the status flags and is
omitted. -/
def update_download_status (s : DownloadState) : DownloadState :=
  let s1 := if !s.session_complete && !s.session_started then
      { s with session_started := true } else s
  let s2 := if s1.download_complete then { s1 with session_complete := true } else s1
  let s3 := if truthyErr s1.download_error then
      { s2 with session_error := s1.download_error } else s2
  s3

/-- An action of the status machine: a fetch attempt finishing with
outcome `o`, or one run of the polling fragment. -/
inductive StatusAction where
  | fetch (o : FetchOutcome)
  | poll
deriving DecidableEq

/-- One step of the download status machine. -/
def statusStep (s : DownloadState) : StatusAction → DownloadState
  | StatusAction.fetch o => background_download s o
  | StatusAction.poll => update_download_status s

/-! ### Concrete file systems used as witnesses and counterexamples -/

/-- A process folder whose three documents sit one level deep. -/
def dirNested3 : Dir :=
  Dir.node [] [Dir.node [pstr ("a.pdf"), pstr ("b.pdf"), pstr ("c.pdf")] []]

/-- The archive as the spec's concrete scenario imagines it: the case
`123/2024` stored under `SEI_123_2024` (3-digit padding). -/
def fsSpec123 : FS := FS.mk [(pstr ("SEI_123_2024"), dirNested3)]

/-- The archive as the code actually addresses it: the case `123/2024`
stored under `SEI_00123_2024` (5-digit padding). -/
def fsCode123 : FS := FS.mk [(pstr ("SEI_00123_2024"), dirNested3)]

/-- An archive holding both spellings a 4-digit sequence number can
normalise to. -/
def fsFourDigit : FS :=
  FS.mk [(pstr ("SEI_1234_2024"), Dir.node [] []),
         (pstr ("SEI_01234_2024"), Dir.node [] [])]

/-- A folder mixing `.pdf` files at several depths with files the
listing must ignore (wrong extension, uppercase `.PDF`). -/
def dirMixed : Dir :=
  Dir.node [pstr ("z2.pdf"), pstr ("notes.txt")]
    [Dir.node [pstr ("z1.pdf"), pstr ("scan.PDF")]
      [Dir.node [pstr ("deep.pdf")] []],
     Dir.node [] []]

/-- Archive with the mixed-depth folder stored for case `7/2024`. -/
def fsMixed : FS := FS.mk [(pstr ("SEI_00007_2024"), dirMixed)]

/-- Archive with a case folder that exists but holds no files at all. -/
def fsEmptyFolder : FS := FS.mk [(pstr ("SEI_00009_2024"), Dir.node [] [])]

/-! ## Lemmas about the string primitives -/

/-- `split` never returns the empty list of fields. -/
lemma pySplit_ne_nil (s : PyStr) (c : Char) : pySplit s c ≠ [] := by
  cases s with
  | nil => simp [pySplit]
  | cons x xs =>
    unfold pySplit
    rcases h : pySplit xs c with _ | ⟨hd, tl⟩ <;> by_cases hx : x == c <;>
      simp [h, hx]

/-- Splitting at a separator that does not occur yields one field. -/
lemma pySplit_no_sep (a : PyStr) (c : Char) (h : c ∉ a) : pySplit a c = [a] := by
  induction a with
  | nil => rfl
  | cons x xs ih =>
    have hx : (x == c) = false := by
      simp only [beq_eq_false_iff_ne]
      intro e
      exact h (e ▸ List.mem_cons_self x xs)
    have hxs : c ∉ xs := fun m => h (List.mem_cons_of_mem _ m)
    simp [pySplit, hx, ih hxs]

/-- Splitting peels off a separator-free field before the first
separator. -/
lemma pySplit_append_sep (a rest : PyStr) (c : Char) (h : c ∉ a) :
    pySplit (a ++ c :: rest) c = a :: pySplit rest c := by
  induction a with
  | nil => simp [pySplit]
  | cons x xs ih =>
    have hx : (x == c) = false := by
      simp only [beq_eq_false_iff_ne]
      intro e
      exact h (e ▸ List.mem_cons_self x xs)
    have hxs : c ∉ xs := fun m => h (List.mem_cons_of_mem _ m)
    simp [pySplit, hx, ih hxs]

/-- No field produced by `split` contains the separator. -/
lemma pySplit_parts_no_sep (s : PyStr) (c : Char) :
    ∀ p ∈ pySplit s c, c ∉ p := by
  induction s with
  | nil =>
    intro p hp
    simp [pySplit] at hp
    simp [hp]
  | cons x xs ih =>
    intro p hp
    by_cases hx : (x == c) = true
    · simp only [pySplit, hx, if_pos] at hp
      rcases List.mem_cons.mp hp with h | h
      · simp [h]
      · exact ih p h
    · rcases h : pySplit xs c with _ | ⟨hd, tl⟩
      · exact absurd h (pySplit_ne_nil xs c)
      · simp only [pySplit, hx, h] at hp
        simp only [Bool.false_eq_true, if_false] at hp
        rcases List.mem_cons.mp hp with h1 | h1
        · subst h1
          intro hm
          rcases List.mem_cons.mp hm with h2 | h2
          · exact absurd (beq_iff_eq.mpr h2.symm) (by simp [hx])
          · exact ih hd (h ▸ List.mem_cons_self hd tl) h2
        · exact ih p (h ▸ List.mem_cons_of_mem hd h1)

/-- `zfill` on a digit string is plain left padding with zeros. -/
lemma pyZfill_digits (s : PyStr) (w : Nat) (h : ∀ x ∈ s, x.isDigit = true) :
    pyZfill s w = List.replicate (w - s.length) '0' ++ s := by
  cases s with
  | nil => simp [pyZfill]
  | cons c rest =>
    have hc : c.isDigit = true := h c (List.mem_cons_self c rest)
    have h1 : (c == '+') = false := by
      simp only [beq_eq_false_iff_ne]
      rintro rfl
      exact absurd hc (by decide)
    have h2 : (c == '-') = false := by
      simp only [beq_eq_false_iff_ne]
      rintro rfl
      exact absurd hc (by decide)
    simp [pyZfill, h1, h2]

/-- The decimal digit characters are digits. -/
lemma digitChar_isDigit {d : Nat} (h : d < 10) : (digitChar d).isDigit = true := by
  interval_cases d <;> decide

/-- Code point of a decimal digit character. -/
lemma digitChar_toNat {d : Nat} (h : d < 10) : (digitChar d).toNat = 48 + d := by
  interval_cases d <;> decide

/-- `natStrAux` with enough fuel renders exactly the decimal digits:
non-empty, all digits, and folding the place values back gives `n`. -/
lemma natStrAux_spec :
    ∀ fuel n, n < fuel →
      natStrAux fuel n ≠ [] ∧ (∀ c ∈ natStrAux fuel n, c.isDigit = true) ∧
        (natStrAux fuel n).foldl (fun a c => a * 10 + (c.toNat - 48)) 0 = n := by
  intro fuel
  induction fuel with
  | zero => intro n h; omega
  | succ f ih =>
    intro n h
    by_cases h10 : n < 10
    · refine ⟨by simp [natStrAux, h10], ?_, ?_⟩
      · intro c hc
        simp [natStrAux, h10] at hc
        subst hc
        exact digitChar_isDigit h10
      · simp [natStrAux, h10, digitChar_toNat h10]
    · have hpos : 0 < n := by omega
      have hlt : n / 10 < n := Nat.div_lt_self hpos (by norm_num)
      have hdiv : n / 10 < f := by omega
      obtain ⟨hne, hdig, hval⟩ := ih (n / 10) hdiv
      have hmod : n % 10 < 10 := Nat.mod_lt n (by norm_num)
      have heq : natStrAux (f + 1) n = natStrAux f (n / 10) ++ [digitChar (n % 10)] := by
        simp [natStrAux, h10]
      refine ⟨by simp [heq], ?_, ?_⟩
      · intro c hc
        rw [heq] at hc
        rcases List.mem_append.mp hc with h1 | h1
        · exact hdig c h1
        · rcases List.mem_singleton.mp h1 with rfl
          exact digitChar_isDigit hmod
      · rw [heq, List.foldl_append, hval]
        simp only [List.foldl_cons, List.foldl_nil, digitChar_toNat hmod]
        omega

/-- The decimal rendering of a natural number is non-empty. -/
lemma natStr_ne_nil (n : Nat) : natStr n ≠ [] :=
  (natStrAux_spec (n + 1) n (by omega)).1

/-- The decimal rendering of a natural number is all digits. -/
lemma natStr_all_digits (n : Nat) : ∀ c ∈ natStr n, c.isDigit = true :=
  (natStrAux_spec (n + 1) n (by omega)).2.1

/-- Reading the decimal rendering back gives the same number. -/
lemma digitsVal_natStr (n : Nat) : digitsVal (natStr n) = some n := by
  obtain ⟨hne, hdig, hval⟩ := natStrAux_spec (n + 1) n (by omega)
  have hempty : (natStr n).isEmpty = false := by
    rcases h : natStr n with _ | ⟨c, cs⟩
    · exact absurd h hne
    · rfl
  have hall : (natStr n).all Char.isDigit = true := List.all_eq_true.mpr hdig
  simp [digitsVal, hempty, hall]
  exact hval

/-- A non-digit character never occurs in a decimal rendering. -/
lemma not_mem_natStr {c : Char} (hc : c.isDigit = false) (n : Nat) :
    c ∉ natStr n :=
  fun h => absurd (natStr_all_digits n c h) (by simp [hc])

/-- `int()` reads back the decimal rendering of a natural number. -/
lemma pyInt_natStr (n : Nat) : pyInt (natStr n) = some (n : Int) := by
  rcases h : natStr n with _ | ⟨c, cs⟩
  · exact absurd h (natStr_ne_nil n)
  · have hc : c.isDigit = true := natStr_all_digits n c (h ▸ List.mem_cons_self c cs)
    have h1 : (c == '-') = false := by
      simp only [beq_eq_false_iff_ne]
      rintro rfl
      exact absurd hc (by decide)
    have h2 : (c == '+') = false := by
      simp only [beq_eq_false_iff_ne]
      rintro rfl
      exact absurd hc (by decide)
    have hv : digitsVal (c :: cs) = some n := h ▸ digitsVal_natStr n
    simp [pyInt, h1, h2, hv]

/-- `int()` reads back the rendering of any Python integer. -/
lemma pyInt_intStr (i : Int) : pyInt (intStr i) = some i := by
  cases i with
  | ofNat n => simpa [intStr] using pyInt_natStr n
  | negSucc m =>
    simp [intStr, pyInt, digitsVal_natStr (m + 1)]
    rw [Int.negSucc_eq]
    ring

/-- A character that is neither a digit nor `'-'` never occurs in the
rendering of a Python integer. -/
lemma not_mem_intStr {c : Char} (hc : c.isDigit = false) (hm : c ≠ '-')
    (i : Int) : c ∉ intStr i := by
  cases i with
  | ofNat n => exact not_mem_natStr hc n
  | negSucc m =>
    intro h
    rcases List.mem_cons.mp h with h1 | h1
    · exact hm h1
    · exact not_mem_natStr hc (m + 1) h1

/-! ## The sort order -/

/-- Code-point comparison of strings is total. -/
lemma strLe_total (a b : PyStr) : strLe a b = true ∨ strLe b a = true := by
  induction a generalizing b with
  | nil => left; rfl
  | cons x xs ih =>
    cases b with
    | nil => right; rfl
    | cons y ys =>
      simp only [strLe]
      rcases Nat.lt_trichotomy x.toNat y.toNat with h | h | h
      · left; simp [h]
      · have h2 : ¬ x.toNat < y.toNat := by omega
        have h3 : ¬ y.toNat < x.toNat := by omega
        rcases ih ys with hh | hh
        · left; simp [h2, h3, hh]
        · right; simp [h2, h3, hh]
      · right; simp [h, show ¬ x.toNat < y.toNat by omega]

/-- Code-point comparison of strings is transitive. -/
lemma strLe_trans (a b c : PyStr) (hab : strLe a b = true)
    (hbc : strLe b c = true) : strLe a c = true := by
  induction a generalizing b c with
  | nil => rfl
  | cons x xs ih =>
    cases b with
    | nil => simp [strLe] at hab
    | cons y ys =>
      cases c with
      | nil => simp [strLe] at hbc
      | cons z zs =>
        simp only [strLe] at hab hbc ⊢
        rcases Nat.lt_trichotomy x.toNat y.toNat with h1 | h1 | h1
        · rcases Nat.lt_trichotomy y.toNat z.toNat with h2 | h2 | h2
          · simp [show x.toNat < z.toNat by omega]
          · simp [show x.toNat < z.toNat by omega]
          · simp [show ¬ y.toNat < z.toNat by omega, h2] at hbc
        · rcases Nat.lt_trichotomy y.toNat z.toNat with h2 | h2 | h2
          · simp [show x.toNat < z.toNat by omega]
          · simp only [show ¬ x.toNat < y.toNat by omega,
              show ¬ y.toNat < x.toNat by omega, if_false] at hab
            simp only [show ¬ y.toNat < z.toNat by omega,
              show ¬ z.toNat < y.toNat by omega, if_false] at hbc
            simp only [show ¬ x.toNat < z.toNat by omega,
              show ¬ z.toNat < x.toNat by omega, if_false]
            exact ih ys zs hab hbc
          · simp [show ¬ y.toNat < z.toNat by omega, h2] at hbc
        · simp [show ¬ x.toNat < y.toNat by omega, h1] at hab

/-- `list.sort()` returns a permutation of its input. -/
lemma pySort_perm (l : List PyStr) : List.Perm (pySort l) l :=
  List.perm_insertionSort strLeP l

/-- `list.sort()` sorts in ascending code-point order. -/
lemma pySort_sorted (l : List PyStr) : List.Sorted strLeP (pySort l) :=
  @List.sorted_insertionSort PyStr strLeP _
    ⟨fun a b => strLe_total a b⟩ ⟨fun a b c => strLe_trans a b c⟩ l

/-- Sorting keeps the length. -/
lemma pySort_length (l : List PyStr) : (pySort l).length = l.length :=
  (pySort_perm l).length_eq

/-! ## Slicing -/

/-- A slice is never longer than the list. -/
lemma pySlice_length_le (l : List α) (a b : Int) :
    (pySlice l a b).length ≤ l.length := by
  simp only [pySlice, List.length_take, List.length_drop]
  omega

/-- With non-negative offset and limit, `l[offset:offset+limit]` holds
at most `max (length - offset) 0` elements, and is empty from
`offset ≥ length` on. -/
lemma pySlice_nonneg (l : List α) (off lim : Int) (hoff : 0 ≤ off)
    (_hlim : 0 ≤ lim) :
    ((pySlice l off (off + lim)).length : Int) ≤ max ((l.length : Int) - off) 0 ∧
      ((l.length : Int) ≤ off → pySlice l off (off + lim) = []) := by
  constructor
  · simp only [pySlice, List.length_take, List.length_drop]
    omega
  · intro hge
    have hs : (if off < 0 then max ((l.length : Int) + off) 0
        else min off (l.length : Int)).toNat = l.length := by omega
    simp only [pySlice, hs, List.drop_length, List.take_nil]

/-- The full slice `l[0:len(l)]` is the list itself. -/
lemma pySlice_zero_len (l : List α) : pySlice l 0 (0 + (l.length : Int)) = l := by
  simp only [pySlice]
  rw [if_neg (by omega : ¬ ((0 : Int) < 0)),
    if_neg (by omega : ¬ ((0 : Int) + (l.length : Int) < 0))]
  have hs : min (0 : Int) (l.length : Int) = 0 := by omega
  have he : min ((0 : Int) + (l.length : Int)) (l.length : Int) = (l.length : Int) := by
    omega
  rw [hs, he]
  simp

/-! ## `search_process` and the folder it probes -/

/-- `search_process` returns the probed folder name when it exists and
the sentinel otherwise. -/
lemma search_process_eq (fs : FS) (id : PyStr) :
    search_process fs id =
      if fs.pathExists (folderOf id) then folderOf id
      else pstr ("Process not found") := by
  unfold search_process folderOf
  by_cases h : '/' ∉ normalizeId id <;> simp [h]

/-- Every probed folder name starts with `SEI_`. -/
lemma folderOf_shape (id : PyStr) :
    ∃ rest, folderOf id = 'S' :: 'E' :: 'I' :: '_' :: rest := by
  simp only [folderOf]
  by_cases h : '/' ∉ normalizeId id
  · rw [if_pos h]
    exact ⟨_, rfl⟩
  · rw [if_neg h]
    exact ⟨_, rfl⟩

/-- A probed folder name is never the `"Process not found"` sentinel. -/
lemma folderOf_ne_notfound (id : PyStr) : folderOf id ≠ pstr ("Process not found") := by
  obtain ⟨rest, hr⟩ := folderOf_shape id
  rw [hr]
  intro h
  have := List.head_eq_of_cons_eq h
  simp at this

/-- A probed folder name is never the `"Process folder not found"`
sentinel. -/
lemma folderOf_ne_foldernotfound (id : PyStr) :
    folderOf id ≠ pstr ("Process folder not found") := by
  obtain ⟨rest, hr⟩ := folderOf_shape id
  rw [hr]
  intro h
  have := List.head_eq_of_cons_eq h
  simp at this

/-! ## Evaluating the listing tool on a well-formed packed call -/

/-- Splitting the packed string `"<pid>,<a>,<b>"` recovers the three
fields when none of them contains a comma. -/
lemma pySplit_pack3 (pid a b : PyStr) (hpid : ',' ∉ pid) (ha : ',' ∉ a)
    (hb : ',' ∉ b) :
    pySplit (pid ++ [','] ++ a ++ [','] ++ b) ',' = [pid, a, b] := by
  have hshape : pid ++ [','] ++ a ++ [','] ++ b = pid ++ ',' :: (a ++ ',' :: b) := by
    simp
  rw [hshape, pySplit_append_sep _ _ _ hpid, pySplit_append_sep _ _ _ ha,
    pySplit_no_sep _ _ hb]

/-- On a packed call `"<pid>,<limit>,<offset>"` for a case whose folder
exists, the listing tool returns the slice of the sorted `.pdf` file
names and the full count. -/
lemma list_call_ok (fs : FS) (pid : PyStr) (lim off : Int) (hpid : ',' ∉ pid)
    (hfound : fs.pathExists (folderOf pid) = true) :
    get_document_list_from_process fs (pid ++ [','] ++ intStr lim ++ [','] ++ intStr off) =
      ListResult.ok
        (pySlice (pySort (pdfFilter (walkDocuments fs (folderOf pid)))) off (off + lim))
        (pySort (pdfFilter (walkDocuments fs (folderOf pid)))).length := by
  have hsplit := pySplit_pack3 pid (intStr lim) (intStr off) hpid
    (not_mem_intStr (by decide) (by decide) lim)
    (not_mem_intStr (by decide) (by decide) off)
  have hsearch : search_process fs pid = folderOf pid := by
    rw [search_process_eq, if_pos hfound]
  have hne : ¬ (search_process fs pid = pstr ("Process not found") ∨
      search_process fs pid = pstr ("Process folder not found")) := by
    rw [hsearch]
    push_neg
    exact ⟨folderOf_ne_notfound pid, folderOf_ne_foldernotfound pid⟩
  have hne2 : ¬ (folderOf pid = pstr ("Process not found") ∨
      folderOf pid = pstr ("Process folder not found")) := by
    push_neg
    exact ⟨folderOf_ne_notfound pid, folderOf_ne_foldernotfound pid⟩
  simp only [get_document_list_from_process, hsplit, pyInt_intStr, hsearch]
  rw [if_neg hne2]

/-! ## Normalisation of the two identifier shapes -/

/-- A digit string contains no slash. -/
lemma no_slash_of_digits (s : PyStr) (h : ∀ c ∈ s, c.isDigit = true) :
    '/' ∉ s :=
  fun hm => absurd (h _ hm) (by decide)

/-- The slashed and the compact spelling of the same sequence/year pair
are normalised to the same probed folder name — provided the sequence
part does not have exactly 4 digits. -/
lemma folderOf_slashed_compact (S Y : PyStr) (hS : ∀ c ∈ S, c.isDigit = true)
    (hY : ∀ c ∈ Y, c.isDigit = true) (hYlen : Y.length = 4)
    (hSlen : S.length ≠ 4) :
    folderOf (S ++ '/' :: Y) = folderOf (S ++ Y) := by
  have hSs : '/' ∉ S := no_slash_of_digits S hS
  have hYs : '/' ∉ Y := no_slash_of_digits Y hY
  have hslash : '/' ∈ S ++ '/' :: Y :=
    List.mem_append.mpr (Or.inr (List.mem_cons_self _ _))
  have hnoslash : '/' ∉ S ++ Y := by
    intro hm
    rcases List.mem_append.mp hm with h | h
    · exact hSs h
    · exact hYs h
  have hsplitS : pySplit (S ++ '/' :: Y) '/' = [S, Y] := by
    rw [pySplit_append_sep _ _ _ hSs, pySplit_no_sep _ _ hYs]
  have hlenS : (S ++ '/' :: Y).length = S.length + 5 := by simp [hYlen]
  have hlenC : (S ++ Y).length = S.length + 4 := by simp [hYlen]
  rcases Nat.lt_or_ge S.length 4 with hlen | hlen
  · -- at most 3 digits: both shapes are padded
    have hzS : pyZfill S 5 = List.replicate (5 - S.length) '0' ++ S :=
      pyZfill_digits S 5 hS
    have hdigSY : ∀ c ∈ S ++ Y, c.isDigit = true := by
      intro c hc
      rcases List.mem_append.mp hc with h | h
      · exact hS c h
      · exact hY c h
    have hzC : pyZfill (S ++ Y) 9 =
        List.replicate (5 - S.length) '0' ++ (S ++ Y) := by
      rw [pyZfill_digits _ _ hdigSY, hlenC,
        show 9 - (S.length + 4) = 5 - S.length by omega]
    have hn1 : normalizeId (S ++ '/' :: Y) = pyZfill S 5 ++ '/' :: Y := by
      rw [normalizeId, if_pos (by omega : (S ++ '/' :: Y).length < 9),
        if_neg (by simp only [not_not]; exact hslash), hsplitS]
      simp [pyJoin]
    have hn2 : normalizeId (S ++ Y) =
        List.replicate (5 - S.length) '0' ++ (S ++ Y) := by
      rw [normalizeId, if_pos (by omega : (S ++ Y).length < 9), if_pos hnoslash,
        hzC]
    have hzf_noslash : '/' ∉ pyZfill S 5 := by
      rw [hzS]
      intro hm
      rcases List.mem_append.mp hm with h | h
      · exact absurd (List.eq_of_mem_replicate h) (by decide)
      · exact hSs h
    have hsplit2 : pySplit (pyZfill S 5 ++ '/' :: Y) '/' = [pyZfill S 5, Y] := by
      rw [pySplit_append_sep _ _ _ hzf_noslash, pySplit_no_sep _ _ hYs]
    have hf1 : folderOf (S ++ '/' :: Y) =
        pstr ("SEI_") ++ pyZfill S 5 ++ pstr ("_") ++ Y := by
      rw [folderOf, hn1]
      rw [if_neg (show ¬ '/' ∉ pyZfill S 5 ++ '/' :: Y by
        simp only [not_not]
        exact List.mem_append.mpr (Or.inr (List.mem_cons_self _ _)))]
      simp [hsplit2]
    have hPSlen : (List.replicate (5 - S.length) '0' ++ S).length = 5 := by
      simp
      omega
    have hno2 : '/' ∉ List.replicate (5 - S.length) '0' ++ (S ++ Y) := by
      intro hm
      rcases List.mem_append.mp hm with h | h
      · exact absurd (List.eq_of_mem_replicate h) (by decide)
      · exact hnoslash h
    have hlen9 : (List.replicate (5 - S.length) '0' ++ (S ++ Y)).length = 9 := by
      simp [hlenC]
      omega
    have hf2 : folderOf (S ++ Y) =
        pstr ("SEI_") ++ (List.replicate (5 - S.length) '0' ++ S) ++
          pstr ("_") ++ Y := by
      rw [folderOf, hn2, if_pos hno2, pyDropLastN, pyTakeLastN, hlen9,
        show (9 : Nat) - 4 = 5 from rfl,
        show List.replicate (5 - S.length) '0' ++ (S ++ Y) =
          (List.replicate (5 - S.length) '0' ++ S) ++ Y by rw [List.append_assoc],
        List.take_left' hPSlen, List.drop_left' hPSlen]
    rw [hf1, hf2, hzS]
  · -- at least 5 digits: neither shape is padded
    have hge : 5 ≤ S.length := by omega
    have hn1 : normalizeId (S ++ '/' :: Y) = S ++ '/' :: Y := by
      rw [normalizeId, if_neg (by omega : ¬ (S ++ '/' :: Y).length < 9)]
    have hn2 : normalizeId (S ++ Y) = S ++ Y := by
      rw [normalizeId, if_neg (by omega : ¬ (S ++ Y).length < 9)]
    have hf1 : folderOf (S ++ '/' :: Y) =
        pstr ("SEI_") ++ S ++ pstr ("_") ++ Y := by
      rw [folderOf, hn1, if_neg (by simp only [not_not]; exact hslash)]
      simp [hsplitS]
    have hf2 : folderOf (S ++ Y) = pstr ("SEI_") ++ S ++ pstr ("_") ++ Y := by
      rw [folderOf, hn2, if_pos hnoslash, pyDropLastN, pyTakeLastN, hlenC,
        show S.length + 4 - 4 = S.length by omega,
        List.take_left, List.drop_left]
    rw [hf1, hf2]

/-! ## Claim C1 -/

/-- C1, counterexample.  The claim says `search_process` resolves
`"123/2024"` and `"1232024"` to the folder name `SEI_123_2024`.  It does
not: even on an archive that stores the case under `SEI_123_2024` with
exactly the three nested documents of the scenario, both identifier
shapes are normalised to the 5-digit name `SEI_00123_2024`, the
existence probe fails, and the sentinel is returned. -/
theorem C1_counterexample :
    search_process fsSpec123 (pstr ("123/2024")) = pstr ("Process not found") ∧
      search_process fsSpec123 (pstr ("1232024")) = pstr ("Process not found") ∧
      search_process fsSpec123 (pstr ("123/2024")) ≠ pstr ("SEI_123_2024") := by
  refine ⟨by decide, by decide, by decide⟩

/-- C1, amended.  Both identifier shapes resolve to `SEI_00123_2024`
(the sequence part is zero-padded to 5 digits, not 3); on that folder,
with `a.pdf`, `b.pdf`, `c.pdf` nested one level deep, `limit=2` and
`offset=1` return documents `[b.pdf, c.pdf]` and a total of 3. -/
theorem C1_amended_scenario :
    search_process fsCode123 (pstr ("123/2024")) = pstr ("SEI_00123_2024") ∧
      search_process fsCode123 (pstr ("1232024")) = pstr ("SEI_00123_2024") ∧
      get_document_list_from_process fsCode123 (pstr ("123/2024,2,1")) =
        ListResult.ok [pstr ("b.pdf"), pstr ("c.pdf")] 3 ∧
      get_document_list_from_process fsCode123 (pstr ("1232024,2,1")) =
        ListResult.ok [pstr ("b.pdf"), pstr ("c.pdf")] 3 := by
  refine ⟨by decide, by decide, by decide, by decide⟩

/-! ## Claim C2 -/

/-- C2, counterexample.  For the logical case 1234/2024 the two shapes
disagree: the slashed spelling is 9 characters long and escapes the
padding step, while the compact spelling is 8 characters long and is
padded, so they normalise to the distinct folder names `SEI_1234_2024`
and `SEI_01234_2024`. -/
theorem C2_counterexample :
    search_process fsFourDigit (pstr ("1234/2024")) = pstr ("SEI_1234_2024") ∧
      search_process fsFourDigit (pstr ("12342024")) = pstr ("SEI_01234_2024") ∧
      search_process fsFourDigit (pstr ("1234/2024")) ≠
        search_process fsFourDigit (pstr ("12342024")) := by
  refine ⟨by decide, by decide, by decide⟩

/-- C2, amended.  For every sequence part `S` (digits) and 4-digit year
`Y`, the slashed identifier `S/Y` and the compact identifier `SY` are
mapped by `search_process` to the same result on every archive —
provided `S` is not exactly 4 digits long (4-digit sequence parts are
the one width where only the compact shape is padded). -/
theorem C2_normalization_equiv (S Y : PyStr) (hS : ∀ c ∈ S, c.isDigit = true)
    (hY : ∀ c ∈ Y, c.isDigit = true) (hYlen : Y.length = 4)
    (hSlen : S.length ≠ 4) (fs : FS) :
    search_process fs (S ++ '/' :: Y) = search_process fs (S ++ Y) := by
  rw [search_process_eq, search_process_eq,
    folderOf_slashed_compact S Y hS hY hYlen hSlen]

/-- C2, witness: the amended equivalence applied to the case 123/2024
(and, for the padding case, 1/2024) on the concrete archive. -/
theorem C2_normalization_equiv_witness :
    search_process fsCode123 (pstr ("123") ++ '/' :: pstr ("2024")) =
      search_process fsCode123 (pstr ("123") ++ pstr ("2024")) ∧
    search_process fsCode123 (pstr ("1") ++ '/' :: pstr ("2024")) =
      search_process fsCode123 (pstr ("1") ++ pstr ("2024")) :=
  ⟨C2_normalization_equiv (pstr ("123")) (pstr ("2024")) (by decide) (by decide)
      (by decide) (by decide) fsCode123,
    C2_normalization_equiv (pstr ("1")) (pstr ("2024")) (by decide) (by decide)
      (by decide) (by decide) fsCode123⟩

/-! ## Claim C3 -/

/-- C3.  For every existing case folder and non-negative limit and
offset, the returned page holds at most `max (total - offset) 0`
documents, and from `offset ≥ total` on it is empty while the reported
total still equals the full count of `.pdf` files in the folder. -/
theorem C3_page_bound (fs : FS) (pid : PyStr) (lim off : Int)
    (hpid : ',' ∉ pid) (hfound : fs.pathExists (folderOf pid) = true)
    (hlim : 0 ≤ lim) (hoff : 0 ≤ off) :
    ∃ docs,
      get_document_list_from_process fs
          (pid ++ [','] ++ intStr lim ++ [','] ++ intStr off) =
        ListResult.ok docs (pdfCount fs pid) ∧
      (docs.length : Int) ≤ max ((pdfCount fs pid : Int) - off) 0 ∧
      ((pdfCount fs pid : Int) ≤ off → docs = []) := by
  have hcall := list_call_ok fs pid lim off hpid hfound
  have hLlen : (pySort (pdfFilter (walkDocuments fs (folderOf pid)))).length =
      pdfCount fs pid := by
    rw [pySort_length]
    rfl
  obtain ⟨hbound, hempty⟩ :=
    pySlice_nonneg (pySort (pdfFilter (walkDocuments fs (folderOf pid)))) off lim
      hoff hlim
  refine ⟨pySlice (pySort (pdfFilter (walkDocuments fs (folderOf pid)))) off
      (off + lim), ?_, ?_, ?_⟩
  · rw [hcall, hLlen]
  · rw [hLlen] at hbound
    exact hbound
  · intro hge
    apply hempty
    rw [hLlen]
    exact hge

/-- C3, witness: on the mixed archive (3 `.pdf` files), `limit=2`,
`offset=5` yields an empty page and total 3. -/
theorem C3_page_bound_witness :
    ∃ docs,
      get_document_list_from_process fsMixed
          (pstr ("7/2024") ++ [','] ++ intStr 2 ++ [','] ++ intStr 5) =
        ListResult.ok docs (pdfCount fsMixed (pstr ("7/2024"))) ∧
      (docs.length : Int) ≤ max ((pdfCount fsMixed (pstr ("7/2024")) : Int) - 5) 0 ∧
      ((pdfCount fsMixed (pstr ("7/2024")) : Int) ≤ 5 → docs = []) :=
  C3_page_bound fsMixed (pstr ("7/2024")) 2 5 (by decide) (by decide)
    (by decide) (by decide)

/-! ## Claim C4 -/

/-- C4.  For every existing case folder with `N` files ending in the
case-sensitive suffix `".pdf"` at any nesting depth, `limit=N` and
`offset=0` return all `N` file names in ascending lexicographic order
together with `total = N`; every returned name carries the `.pdf`
suffix, and the page is exactly a permutation of the suffix-filtered
walk. -/
theorem C4_full_listing (fs : FS) (pid : PyStr) (hpid : ',' ∉ pid)
    (hfound : fs.pathExists (folderOf pid) = true) :
    ∃ docs,
      get_document_list_from_process fs
          (pid ++ [','] ++ natStr (pdfCount fs pid) ++ pstr (",0")) =
        ListResult.ok docs (pdfCount fs pid) ∧
      List.Sorted strLeP docs ∧
      List.Perm docs (pdfFilter (walkDocuments fs (folderOf pid))) ∧
      (∀ d ∈ docs, pyEndsWith d (pstr (".pdf")) = true) := by
  have hinput : pid ++ [','] ++ natStr (pdfCount fs pid) ++ pstr (",0") =
      pid ++ [','] ++ intStr (pdfCount fs pid : Int) ++ [','] ++ intStr 0 := by
    simp only [List.append_assoc]
    rfl
  have hcall := list_call_ok fs pid (pdfCount fs pid : Int) 0 hpid hfound
  have hLlen : (pySort (pdfFilter (walkDocuments fs (folderOf pid)))).length =
      pdfCount fs pid := by
    rw [pySort_length]
    rfl
  have hslice :
      pySlice (pySort (pdfFilter (walkDocuments fs (folderOf pid)))) 0
          (0 + (pdfCount fs pid : Int)) =
        pySort (pdfFilter (walkDocuments fs (folderOf pid))) := by
    rw [← hLlen]
    exact pySlice_zero_len _
  refine ⟨pySort (pdfFilter (walkDocuments fs (folderOf pid))), ?_, ?_, ?_, ?_⟩
  · rw [hinput, hcall, hLlen, hslice]
  · exact pySort_sorted _
  · exact pySort_perm _
  · intro d hd
    have hmem : d ∈ pdfFilter (walkDocuments fs (folderOf pid)) :=
      (pySort_perm _).mem_iff.mp hd
    exact (List.mem_filter.mp hmem).2

/-- C4, witness: the full listing of the mixed archive returns the 3
lower-case `.pdf` files (ignoring `notes.txt` and the upper-case
`scan.PDF`), sorted. -/
theorem C4_full_listing_witness :
    ∃ docs,
      get_document_list_from_process fsMixed
          (pstr ("7/2024") ++ [','] ++
            natStr (pdfCount fsMixed (pstr ("7/2024"))) ++ pstr (",0")) =
        ListResult.ok docs (pdfCount fsMixed (pstr ("7/2024"))) ∧
      List.Sorted strLeP docs ∧
      List.Perm docs
        (pdfFilter (walkDocuments fsMixed (folderOf (pstr ("7/2024"))))) ∧
      (∀ d ∈ docs, pyEndsWith d (pstr (".pdf")) = true) :=
  C4_full_listing fsMixed (pstr ("7/2024")) (by decide) (by decide)

/-! ## Claim C10 -/

/-- C10.  The `"Process folder not found"` branch of the listing tool
is unreachable: the walk/sort/slice block raises nothing (with
`onerror=None`, `os.walk` over an absent directory simply yields no
entries), so no input and no archive can produce that sentinel; and for
a case that `search_process` finds whose folder holds no files, the
tool returns the success object with an empty page and total 0. -/
theorem C10_folder_sentinel_unreachable :
    (∀ fs params, get_document_list_from_process fs params ≠
        ListResult.err (pstr ("Process folder not found"))) ∧
      (∀ fs pid (lim off : Int), ',' ∉ pid →
        fs.pathExists (folderOf pid) = true →
        walkDocuments fs (folderOf pid) = [] →
        get_document_list_from_process fs
            (pid ++ [','] ++ intStr lim ++ [','] ++ intStr off) =
          ListResult.ok [] 0) := by
  constructor
  · intro fs params h
    rcases hsp : pySplit params ',' with _ | ⟨a, _ | ⟨b, _ | ⟨c, _ | ⟨d, e⟩⟩⟩⟩ <;>
      simp only [get_document_list_from_process, hsp] at h
    · exact absurd h (by decide)
    · exact absurd h (by decide)
    · exact absurd h (by decide)
    · by_cases hcase : search_process fs a = pstr ("Process not found") ∨
          search_process fs a = pstr ("Process folder not found")
      · rw [if_pos hcase] at h
        rcases hcase with hc | hc
        · rw [hc] at h
          exact absurd h (by decide)
        · rw [search_process_eq] at hc
          split_ifs at hc
          · exact folderOf_ne_foldernotfound a hc
          · exact absurd hc (by decide)
      · rw [if_neg hcase] at h
        rcases h1 : pyInt b with _ | l1 <;> rcases h2 : pyInt c with _ | o1 <;>
          rw [h1, h2] at h
        · exact absurd (ListResult.err.inj h) (by decide)
        · exact absurd (ListResult.err.inj h) (by decide)
        · exact absurd (ListResult.err.inj h) (by decide)
        · exact ListResult.noConfusion h
    · exact absurd h (by decide)
  · intro fs pid lim off hpid hfound hempty
    rw [list_call_ok fs pid lim off hpid hfound, hempty]
    simp [pdfFilter, pySort, pySlice]

/-- C10, witness: an existing but file-less case folder yields the
empty success object, not the sentinel. -/
theorem C10_folder_sentinel_unreachable_witness :
    get_document_list_from_process fsEmptyFolder
        (pstr ("9/2024") ++ [','] ++ intStr 5 ++ [','] ++ intStr 0) =
      ListResult.ok [] 0 :=
  C10_folder_sentinel_unreachable.2 fsEmptyFolder (pstr ("9/2024")) 5 0
    (by decide) (by decide) (by decide)

/-! ## Claim C9 -/

/-- Whenever the listing tool returns the success object, the page
never holds more documents than the reported total. -/
lemma list_ok_length_le (fs : FS) (params : PyStr) (docs : List PyStr)
    (total : Nat)
    (h : get_document_list_from_process fs params = ListResult.ok docs total) :
    docs.length ≤ total := by
  rcases hsp : pySplit params ',' with _ | ⟨a, _ | ⟨b, _ | ⟨c, _ | ⟨d, e⟩⟩⟩⟩ <;>
    simp only [get_document_list_from_process, hsp] at h
  · exact ListResult.noConfusion h
  · exact ListResult.noConfusion h
  · exact ListResult.noConfusion h
  · by_cases hcase : search_process fs a = pstr ("Process not found") ∨
        search_process fs a = pstr ("Process folder not found")
    · rw [if_pos hcase] at h
      exact ListResult.noConfusion h
    · rw [if_neg hcase] at h
      rcases h1 : pyInt b with _ | l1 <;> rcases h2 : pyInt c with _ | o1 <;>
        rw [h1, h2] at h
      · exact ListResult.noConfusion h
      · exact ListResult.noConfusion h
      · exact ListResult.noConfusion h
      · injection h with hd ht
        rw [← hd, ← ht]
        exact pySlice_length_le _ _ _
  · exact ListResult.noConfusion h

/-- C9, counterexample.  The claim's final part — that with a negative
offset the page "can exceed the documented bound of `total - offset`
items" — is impossible: a page never holds more than `total` documents,
and `total - offset` exceeds `total` whenever `offset < 0`. -/
theorem C9_counterexample :
    ¬ ∃ (fs : FS) (pid : PyStr) (lim off : Int) (docs : List PyStr)
        (total : Nat),
        off < 0 ∧
        get_document_list_from_process fs
            (pid ++ [','] ++ intStr lim ++ [','] ++ intStr off) =
          ListResult.ok docs total ∧
        (total : Int) - off < (docs.length : Int) := by
  rintro ⟨fs, pid, lim, off, docs, total, hoff, hcall, hgt⟩
  have hle : docs.length ≤ total := list_ok_length_le fs _ docs total hcall
  omega

/-- C9, amended.  Negative limits and offsets pass the `int()`
conversions, so an existing case never yields the `"Invalid
parameters"` sentinel whatever their sign; a negative offset addresses
the sorted list from its end (offset `-2`, limit `1` on the 3-document
folder returns the middle document `b.pdf`, which lies outside the
documented positions `[-2, -1)`); but the page can never hold more than
`total` documents, hence never more than `total - offset` when the
offset is negative. -/
theorem C9_negative_pagination :
    (∀ fs (pid : PyStr) (lim off : Int), ',' ∉ pid →
      fs.pathExists (folderOf pid) = true →
      ∃ docs total,
        get_document_list_from_process fs
            (pid ++ [','] ++ intStr lim ++ [','] ++ intStr off) =
          ListResult.ok docs total) ∧
    get_document_list_from_process fsCode123 (pstr ("123/2024,1,-2")) =
      ListResult.ok [pstr ("b.pdf")] 3 ∧
    (∀ fs params docs total,
      get_document_list_from_process fs params = ListResult.ok docs total →
      docs.length ≤ total) := by
  refine ⟨?_, by decide, fun fs params docs total h =>
    list_ok_length_le fs params docs total h⟩
  intro fs pid lim off hpid hfound
  exact ⟨_, _, list_call_ok fs pid lim off hpid hfound⟩

/-- C9, witness: both pagination parameters negative on the archive of
the concrete scenario still produce the success object. -/
theorem C9_negative_pagination_witness :
    ∃ docs total,
      get_document_list_from_process fsCode123
          (pstr ("123/2024") ++ [','] ++ intStr (-1) ++ [','] ++ intStr (-2)) =
        ListResult.ok docs total :=
  C9_negative_pagination.1 fsCode123 (pstr ("123/2024")) (-1) (-2)
    (by decide) (by decide)

/-! ## Claims C5 and C6 -/

/-- Behaviour of `get_document_by_type` once its input has split into a
process identifier (whose folder exists) and a type token: the probe
call and the full listing both succeed, and the result is the filtered
list or the not-found message. -/
lemma by_type_split_eval (fs : FS) (params pid ty : PyStr)
    (hsp : pySplit params ',' = [pid, ty])
    (hfound : fs.pathExists (folderOf pid) = true) :
    get_document_by_type fs params =
      if 0 < (typeMatches fs pid ty).length then
        Except.ok (TypeResult.ok (typeMatches fs pid ty)
          (typeMatches fs pid ty).length)
      else
        Except.ok (TypeResult.err (pstr ("Documents of type ") ++ ty ++
          pstr (" not found in process ") ++ pid)) := by
  have hpid : ',' ∉ pid :=
    pySplit_parts_no_sep params ',' pid (hsp ▸ List.mem_cons_self _ _)
  have hsearch : search_process fs pid = folderOf pid := by
    rw [search_process_eq, if_pos hfound]
  have hne : ¬ (search_process fs pid = pstr ("Process not found") ∨
      search_process fs pid = pstr ("Process folder not found")) := by
    rw [hsearch]
    push_neg
    exact ⟨folderOf_ne_notfound pid, folderOf_ne_foldernotfound pid⟩
  have hc1 : get_document_list_from_process fs (pid ++ pstr (",1,0")) =
      ListResult.ok
        (pySlice (pySort (pdfFilter (walkDocuments fs (folderOf pid)))) 0 (0 + 1))
        (pySort (pdfFilter (walkDocuments fs (folderOf pid)))).length := by
    have heq : pid ++ pstr (",1,0") =
        pid ++ [','] ++ intStr 1 ++ [','] ++ intStr 0 := by
      simp only [List.append_assoc]
      rfl
    rw [heq]
    exact list_call_ok fs pid 1 0 hpid hfound
  have hc2 : get_document_list_from_process fs
      (pid ++ [','] ++
        natStr (pySort (pdfFilter (walkDocuments fs (folderOf pid)))).length ++
        pstr (",0")) =
      ListResult.ok (pySort (pdfFilter (walkDocuments fs (folderOf pid))))
        (pySort (pdfFilter (walkDocuments fs (folderOf pid)))).length := by
    have heq : pid ++ [','] ++
        natStr (pySort (pdfFilter (walkDocuments fs (folderOf pid)))).length ++
        pstr (",0") =
        pid ++ [','] ++
          intStr ((pySort (pdfFilter (walkDocuments fs (folderOf pid)))).length : Int)
          ++ [','] ++ intStr 0 := by
      simp only [List.append_assoc]
      rfl
    rw [heq, list_call_ok fs pid _ 0 hpid hfound]
    rw [pySlice_zero_len]
  simp only [get_document_by_type, hsp]
  rw [if_neg hne]
  simp only [hc1]
  simp only [hc2]
  simp only [typeMatches, gt_iff_lt]

/-- C5.  On an existing case, `get_document_by_type` returns exactly
the documents whose lower-cased name contains the lower-cased type
token, paired with their count; and when no document matches it returns
the textual "Documents of type … not found" message instead of a
success object with an empty list. -/
theorem C5_type_filter (fs : FS) (pid ty : PyStr) (hsp : ',' ∉ pid)
    (hty : ',' ∉ ty) (hfound : fs.pathExists (folderOf pid) = true) :
    (∀ d ∈ typeMatches fs pid ty, pyContains (pyLower d) (pyLower ty) = true) ∧
    (typeMatches fs pid ty ≠ [] →
      get_document_by_type fs (pid ++ [','] ++ ty) =
        Except.ok (TypeResult.ok (typeMatches fs pid ty)
          (typeMatches fs pid ty).length)) ∧
    (typeMatches fs pid ty = [] →
      get_document_by_type fs (pid ++ [','] ++ ty) =
        Except.ok (TypeResult.err (pstr ("Documents of type ") ++ ty ++
          pstr (" not found in process ") ++ pid))) := by
  have hpack : pySplit (pid ++ [','] ++ ty) ',' = [pid, ty] := by
    have heq : pid ++ [','] ++ ty = pid ++ ',' :: ty := by simp
    rw [heq, pySplit_append_sep _ _ _ hsp, pySplit_no_sep _ _ hty]
  have hmain := by_type_split_eval fs (pid ++ [','] ++ ty) pid ty hpack hfound
  refine ⟨?_, ?_, ?_⟩
  · intro d hd
    exact (List.mem_filter.mp hd).2
  · intro hne
    rw [hmain, if_pos (List.length_pos.mpr hne)]
  · intro hnil
    rw [hmain, if_neg (by rw [hnil]; simp)]

/-- C5, witness: on the mixed archive, token `"Z1"` matches exactly
`z1.pdf` case-insensitively, and token `"xyz"` produces the message. -/
theorem C5_type_filter_witness :
    ((∀ d ∈ typeMatches fsMixed (pstr ("7/2024")) (pstr ("Z1")),
        pyContains (pyLower d) (pyLower (pstr ("Z1"))) = true) ∧
      (typeMatches fsMixed (pstr ("7/2024")) (pstr ("Z1")) ≠ [] →
        get_document_by_type fsMixed (pstr ("7/2024") ++ [','] ++ pstr ("Z1")) =
          Except.ok (TypeResult.ok (typeMatches fsMixed (pstr ("7/2024")) (pstr ("Z1")))
            (typeMatches fsMixed (pstr ("7/2024")) (pstr ("Z1"))).length)) ∧
      (typeMatches fsMixed (pstr ("7/2024")) (pstr ("Z1")) = [] →
        get_document_by_type fsMixed (pstr ("7/2024") ++ [','] ++ pstr ("Z1")) =
          Except.ok (TypeResult.err (pstr ("Documents of type ") ++ pstr ("Z1") ++
            pstr (" not found in process ") ++ pstr ("7/2024"))))) ∧
    typeMatches fsMixed (pstr ("7/2024")) (pstr ("Z1")) = [pstr ("z1.pdf")] :=
  ⟨C5_type_filter fsMixed (pstr ("7/2024")) (pstr ("Z1")) (by decide) (by decide)
      (by decide),
    by decide⟩

/-- C6, counterexample.  `get_document_by_type` unpacks its split
outside any `try`: an input without exactly one comma raises
`ValueError` past the tool boundary instead of being converted to an
error string. -/
theorem C6_counterexample :
    get_document_by_type (FS.mk []) (pstr ("abc")) =
      Except.error (pstr ("ValueError: not exactly two comma-separated fields")) := by
  rfl

/-- C6, amended.  `search_process` and `get_document_list_from_process`
wrap their whole bodies in `try` and are total (they return sentinel
strings instead of raising), but `get_document_by_type` raises exactly
when its input does not split into two comma-separated fields; whenever
it does split into two fields it returns normally. -/
theorem C6_toolRaises_iff (fs : FS) (params : PyStr) :
    raisesException (get_document_by_type fs params) =
      decide ((pySplit params ',').length ≠ 2) := by
  rcases hsp : pySplit params ',' with _ | ⟨a, _ | ⟨b, _ | ⟨c, d⟩⟩⟩
  · simp only [get_document_by_type, hsp]
    rfl
  · simp only [get_document_by_type, hsp]
    rfl
  · by_cases hcase : search_process fs a = pstr ("Process not found") ∨
        search_process fs a = pstr ("Process folder not found")
    · simp only [get_document_by_type, hsp]
      rw [if_pos hcase]
      rfl
    · cases hb : fs.pathExists (folderOf a) with
      | false =>
        exfalso
        apply hcase
        left
        rw [search_process_eq, if_neg (by simp [hb])]
      | true =>
        rw [by_type_split_eval fs params a b hsp hb]
        by_cases h : 0 < (typeMatches fs a b).length <;>
          simp [h, raisesException]
  · simp only [get_document_by_type, hsp, raisesException]
    simp only [List.length_cons]
    exact (decide_eq_true (by omega)).symm

/-! ## Claim C7 -/

/-- C7, counterexample.  `os.makedirs(output_dir, exist_ok=True)` runs
*before* the `try`, so a filesystem failure there (permission denied,
destination path occupied by a plain file) raises past the function
boundary instead of being converted into `False`. -/
theorem C7_counterexample :
    download_and_extract_zip_from_drive
        (ZipEnv.mk (some (pstr ("PermissionError: [Errno 13]"))) none
          ExtractOutcome.ok none) =
      Except.error (pstr ("PermissionError: [Errno 13]")) := by
  rfl

/-- C7, amended.  Once the destination directory has been created
(`os.makedirs` succeeded), every later failure — download, malformed
archive, extraction, zip removal — is caught and converted into a
`False` return; and the function returns `True` exactly when directory
creation, download, extraction and removal all succeeded. -/
theorem C7_fetcher_boundary (env : ZipEnv) :
    (env.makedirsError = none →
      ∃ b, download_and_extract_zip_from_drive env = Except.ok b) ∧
    (download_and_extract_zip_from_drive env = Except.ok true ↔
      env.makedirsError = none ∧ env.downloadError = none ∧
        env.extractOutcome = ExtractOutcome.ok ∧ env.removeError = none) := by
  obtain ⟨mk, dl, ex, rm⟩ := env
  constructor
  · intro h
    subst h
    cases dl <;> cases ex <;> cases rm <;>
      exact ⟨_, rfl⟩
  · cases mk <;> cases dl <;> cases ex <;> cases rm <;>
      simp [download_and_extract_zip_from_drive]

/-- C7, witness: with all four effectful calls succeeding the fetcher
returns `True` without raising. -/
theorem C7_fetcher_boundary_witness :
    ((ZipEnv.mk none none ExtractOutcome.ok none).makedirsError = none →
      ∃ b, download_and_extract_zip_from_drive
          (ZipEnv.mk none none ExtractOutcome.ok none) = Except.ok b) ∧
    (download_and_extract_zip_from_drive
        (ZipEnv.mk none none ExtractOutcome.ok none) = Except.ok true ↔
      (ZipEnv.mk none none ExtractOutcome.ok none).makedirsError = none ∧
        (ZipEnv.mk none none ExtractOutcome.ok none).downloadError = none ∧
        (ZipEnv.mk none none ExtractOutcome.ok none).extractOutcome =
          ExtractOutcome.ok ∧
        (ZipEnv.mk none none ExtractOutcome.ok none).removeError = none) :=
  C7_fetcher_boundary (ZipEnv.mk none none ExtractOutcome.ok none)

/-! ## Claim C8 -/

/-- C8.  In the download status machine: a set `download_complete` (or
mirrored `session_complete`) flag survives every step; a set
`download_error` survives every step; the complete flag becomes `true`
only through a successful fetch; and a failed fetch leaves the complete
flag exactly as it was while setting the error. -/
theorem C8_status_machine (s : DownloadState) (a : StatusAction) :
    (s.download_complete = true → (statusStep s a).download_complete = true) ∧
    (s.session_complete = true → (statusStep s a).session_complete = true) ∧
    ((s.download_error).isSome = true →
      ((statusStep s a).download_error).isSome = true) ∧
    ((statusStep s a).download_complete = true →
      s.download_complete = true ∨ a = StatusAction.fetch FetchOutcome.success) ∧
    (((statusStep s a).download_error).isSome = true →
      (s.download_error).isSome = true ∨
        a = StatusAction.fetch FetchOutcome.failure ∨
        ∃ m, a = StatusAction.fetch (FetchOutcome.exc m)) ∧
    (a = StatusAction.fetch FetchOutcome.failure →
      (statusStep s a).download_complete = s.download_complete ∧
        ((statusStep s a).download_error).isSome = true) := by
  cases a with
  | poll =>
    refine ⟨?_, ?_, ?_, ?_, ?_, ?_⟩ <;>
      simp only [statusStep, update_download_status] <;>
      split_ifs <;> simp_all
  | fetch o =>
    cases o with
    | success =>
      refine ⟨?_, ?_, ?_, ?_, ?_, ?_⟩ <;>
        simp [statusStep, background_download]
    | failure =>
      refine ⟨?_, ?_, ?_, ?_, ?_, ?_⟩ <;>
        simp [statusStep, background_download]
    | exc m =>
      refine ⟨?_, ?_, ?_, ?_, ?_, ?_⟩ <;>
        simp [statusStep, background_download]

/-- C8, witness: a failed fetch from the fresh state leaves the
complete flag unset and the error flag set. -/
theorem C8_status_machine_witness :
    (statusStep (DownloadState.mk false none false false none)
        (StatusAction.fetch FetchOutcome.failure)).download_complete = false ∧
      ((statusStep (DownloadState.mk false none false false none)
        (StatusAction.fetch FetchOutcome.failure)).download_error).isSome = true := by
  have h := (C8_status_machine (DownloadState.mk false none false false none)
    (StatusAction.fetch FetchOutcome.failure)).2.2.2.2.2 rfl
  exact ⟨h.1, h.2⟩
